import Mathlib

/-!
Verification of the sidecar lifecycle and handshake core of the Atarax-AI
desktop supervisor (`src/ataraxai-ui/src-tauri/src/lib.rs`).

The shallow embedding below translates the Rust source:
* `ApiInfo` — the connection descriptor struct (port: u16, token, status).
* `Json` / `from_str_ApiInfo` — serde_json deserialization of a stdout line
  into `ApiInfo`: the textual JSON grammar is abstracted into a `Json` value
  (a line either is not valid UTF-8, is not a JSON document, or carries a
  `Json` value), while the derive-generated field visitor (required fields,
  u16 range check, unknown fields ignored, duplicate known fields rejected)
  is modelled concretely.
* `runHandshakeLoop` — the event loop of `start_python_sidecar`
  (lines 112-151): per-line decode, status == "ready" check, `set_info`,
  `handshake_complete` flag, `Terminated` handling, silent end of channel.
* `start_sidecar_run` — the supervisor wrapper in `run`'s setup closure
  (lines 164-173): emits the application event "sidecar-error" when the
  handshake task returns an error, and nothing otherwise.
* `stop_python_sidecar` — the stop command (lines 74-81), acting on an
  `AppModel` holding both managed cells (`ApiState`, `ApiProcess`); an OS
  child process is modelled by the outcome its `kill()` call would have.
* `get_api_info` — the bounded-wait polling query (lines 41-72), with time
  discretized in units of the 1-second poll interval: `avail k` is the
  content of the `ApiState` cell at the k-th poll instant.
-/

/-- Connection descriptor, from `struct ApiInfo` (lib.rs lines 15-20).
The Rust `port` field is `u16`; here it is a `Nat` whose range is enforced
by the deserializer (`deserU16`). -/
structure ApiInfo where
  port : Nat
  token : String
  status : String
deriving DecidableEq, Repr

/-- A JSON value, as stored by serde_json after parsing a line of text.
JSON numbers that are integers are carried exactly; a number with a
fractional part (which can never deserialize into any `ApiInfo` field) is
collapsed into `nonIntNum`. -/
inductive Json where
  | null
  | bool (b : Bool)
  | num (n : Int)
  | nonIntNum
  | str (s : String)
  | arr (elems : List Json)
  | obj (fields : List (String × Json))

/-- Accumulator of the serde-derived field visitor for `ApiInfo`. -/
structure ApiInfoFields where
  port? : Option Nat
  token? : Option String
  status? : Option String
deriving DecidableEq, Repr

/-- serde deserialization of a `u16` from a JSON value: only an integral
number in `[0, 65535]` succeeds. -/
def deserU16 : Json → Option Nat
  | .num n => if 0 ≤ n ∧ n < 65536 then some n.toNat else none
  | _ => none

/-- serde deserialization of a `String` from a JSON value. -/
def deserString : Json → Option String
  | .str s => some s
  | _ => none

/-- One step of the serde-derived map visitor for `ApiInfo`: a known key
whose value fails to deserialize, or a duplicated known key, aborts with an
error (`none`); an unknown key is ignored (serde default, no
`deny_unknown_fields`). -/
def visitField (acc : ApiInfoFields) (k : String) (v : Json) : Option ApiInfoFields :=
  if k = "port" then
    match acc.port?, deserU16 v with
    | none, some p => some { acc with port? := some p }
    | _, _ => none
  else if k = "token" then
    match acc.token?, deserString v with
    | none, some t => some { acc with token? := some t }
    | _, _ => none
  else if k = "status" then
    match acc.status?, deserString v with
    | none, some s => some { acc with status? := some s }
    | _, _ => none
  else some acc

/-- The serde-derived map visitor for `ApiInfo`: walks the object's fields
in order, applying `visitField` and aborting on its first error. -/
def visitFields : ApiInfoFields → List (String × Json) → Option ApiInfoFields
  | acc, [] => some acc
  | acc, (k, v) :: rest =>
    match visitField acc k v with
    | some acc' => visitFields acc' rest
    | none => none

/-- `serde_json::from_str::<ApiInfo>` at the JSON-value level: only an
object whose visit yields all three required fields succeeds
(lib.rs line 119). -/
def from_str_ApiInfo : Json → Option ApiInfo
  | .obj fields =>
    match visitFields ⟨none, none, none⟩ fields with
    | some ⟨some p, some t, some s⟩ => some ⟨p, t, s⟩
    | _ => none
  | _ => none

/-- A worker-stdout (or stderr) line, after the two decoding stages the Rust
code applies to the raw bytes: `String::from_utf8` may fail
(`invalidUtf8`), and the resulting string either is not a JSON document
(`notJson`) or parses to a JSON value (`jsonLine`). -/
inductive StdoutLine where
  | invalidUtf8
  | notJson (s : String)
  | jsonLine (v : Json)

/-- The events delivered on the channel of `app_handle.shell().command(..)
.spawn()`, as matched in lib.rs lines 115-147. The catch-all `_ => {}` arm
is `other`. -/
inductive CommandEvent where
  | stdout (line : StdoutLine)
  | stderr (line : StdoutLine)
  | errorEvent (msg : String)
  | terminated (code : Option Int)
  | other

/-- State of the handshake loop: the shared `ApiState` cell's content and the
local `handshake_complete` flag (lib.rs line 112). -/
structure HandshakeState where
  apiState : Option ApiInfo
  handshakeComplete : Bool
deriving DecidableEq, Repr

/-- Processing of one `CommandEvent::Stdout` line (lib.rs lines 116-129):
when the handshake is not complete, try to decode the line as an `ApiInfo`;
on success with `status == "ready"`, publish it (`set_info`) and set the
flag; in every other case the line is only logged and the state is
unchanged. -/
def onStdout (st : HandshakeState) (l : StdoutLine) : HandshakeState :=
  match l with
  | .invalidUtf8 => st
  | .notJson _ => st
  | .jsonLine v =>
    if st.handshakeComplete then st
    else
      match from_str_ApiInfo v with
      | some info => if info.status = "ready" then ⟨some info, true⟩ else st
      | none => st

/-- How the handshake task's `Result` resolves: `Ok(())`, or the error
`"Sidecar process terminated before it became ready."` (lib.rs line 142). -/
inductive HandshakeOutcome where
  | ok
  | terminatedBeforeReady
deriving DecidableEq, Repr

/-- The `while let Some(event) = rx.recv().await` loop of
`start_python_sidecar` (lib.rs lines 114-151): stderr, error and other
events only log; a `Terminated` event before handshake completion returns
the error, after completion it breaks with `Ok`; exhaustion of the channel
falls through to `Ok(())`. -/
def runHandshakeLoop : HandshakeState → List CommandEvent → HandshakeState × HandshakeOutcome
  | st, [] => (st, .ok)
  | st, e :: rest =>
    match e with
    | .stdout l => runHandshakeLoop (onStdout st l) rest
    | .stderr _ => runHandshakeLoop st rest
    | .errorEvent _ => runHandshakeLoop st rest
    | .terminated _ =>
      if st.handshakeComplete then (st, .ok) else (st, .terminatedBeforeReady)
    | .other => runHandshakeLoop st rest

/-- The supervisor wrapper spawned in `run`'s setup closure (lib.rs lines
164-173): runs the handshake task and emits the application event
`"sidecar-error"` exactly when it returned an error. Returns the final
handshake state and the list of emitted application events. -/
def start_sidecar_run (st : HandshakeState) (events : List CommandEvent) :
    HandshakeState × List String :=
  match runHandshakeLoop st events with
  | (st', .ok) => (st', [])
  | (st', .terminatedBeforeReady) => (st', ["sidecar-error"])

/-- Outcome of the OS `kill()` call on a child process: the shallow model of
a `CommandChild` carries the result its `kill()` would produce. -/
inductive KillOutcome where
  | killOk
  | killErr (msg : String)
deriving DecidableEq, Repr

/-- Model of a `CommandChild` held in the `ApiProcess` cell. -/
structure ChildProc where
  killOutcome : KillOutcome
deriving DecidableEq, Repr

/-- The two Tauri-managed cells: `ApiState(Mutex<Option<ApiInfo>>)` and
`ApiProcess(Mutex<Option<CommandChild>>)` (lib.rs lines 23-26). -/
structure AppModel where
  apiInfo : Option ApiInfo
  processHeld : Option ChildProc
deriving DecidableEq, Repr

/-- `ApiState::get_info` (lib.rs lines 34-37): the non-polling read of the
connection cell. -/
def AppModel.get_info (m : AppModel) : Option ApiInfo :=
  m.apiInfo

/-- `stop_python_sidecar` (lib.rs lines 74-81): `take()` the child from the
`ApiProcess` cell; if one was held, `kill()` it, mapping an OS error into
`"Failed to kill sidecar: .."`; otherwise return the benign
`"No sidecar process was running."` error. The `ApiState` cell is not
touched in any branch. -/
def stop_python_sidecar (m : AppModel) : AppModel × Except String Unit :=
  match m.processHeld with
  | some child =>
    ({ m with processHeld := none },
      match child.killOutcome with
      | .killOk => .ok ()
      | .killErr e => .error ("Failed to kill sidecar: " ++ e))
  | none => (m, .error "No sidecar process was running.")

/-- The configured bound of the polling query: 120 seconds (lib.rs line 43). -/
def timeoutSecs : Nat := 120

/-- The poll interval: 1000 ms (lib.rs line 45), i.e. one second. -/
def pollIntervalSecs : Nat := 1

/-- The polling loop of `get_api_info` (lib.rs lines 47-60), with time
discretized at the poll interval: `k` is the elapsed time in seconds at the
current iteration, `fuel` the number of `start.elapsed() < timeout`
checks that will still pass. On success the Rust code returns the
descriptor; when the bound elapses it returns the
`"Backend startup timeout"` error carrying the elapsed time, modelled by
`.error k`. -/
def pollLoop (avail : Nat → Option ApiInfo) : Nat → Nat → Except Nat ApiInfo
  | k, 0 => .error k
  | k, fuel + 1 =>
    match avail k with
    | some info => .ok info
    | none => pollLoop avail (k + pollIntervalSecs) fuel

/-- `get_api_info` (lib.rs lines 41-72): poll the `ApiState` cell once per
second for up to 120 seconds; `avail k` is the cell's content at elapsed
second `k`. -/
def get_api_info (avail : Nat → Option ApiInfo) : Except Nat ApiInfo :=
  pollLoop avail 0 (timeoutSecs / pollIntervalSecs)

/-- A command event that would complete the handshake: a stdout line whose
JSON value deserializes into an `ApiInfo` with `status == "ready"`. -/
def isReadyEvent : CommandEvent → Bool
  | .stdout (.jsonLine v) =>
    match from_str_ApiInfo v with
    | some info => info.status = "ready"
    | none => false
  | _ => false

/-- A stdout line that decodes as a valid ready record. -/
def decodesAsReady : StdoutLine → Bool
  | .jsonLine v =>
    match from_str_ApiInfo v with
    | some info => info.status = "ready"
    | none => false
  | _ => false

/-- Whether the event is `CommandEvent::Terminated`. -/
def isTerminatedEvent : CommandEvent → Bool
  | .terminated _ => true
  | _ => false

/-- Whether the event list contains a `Terminated` event. -/
def hasTerminated (events : List CommandEvent) : Bool :=
  events.any isTerminatedEvent

/-! ## Helper lemmas about the handshake loop -/

theorem isReadyEvent_stdout (l : StdoutLine) :
    isReadyEvent (.stdout l) = decodesAsReady l := by
  cases l <;> rfl

theorem onStdout_nonready (st : HandshakeState) (l : StdoutLine)
    (h : decodesAsReady l = false) : onStdout st l = st := by
  cases l with
  | invalidUtf8 => rfl
  | notJson s => rfl
  | jsonLine v =>
    simp only [decodesAsReady] at h
    unfold onStdout
    cases hc : st.handshakeComplete with
    | true => simp
    | false =>
      cases hv : from_str_ApiInfo v with
      | none => simp [hv]
      | some info =>
        rw [hv] at h
        simp only [decide_eq_false_iff_not] at h
        simp [hv, h]

theorem runHandshakeLoop_skip (rest : List CommandEvent) :
    ∀ (pre : List CommandEvent) (st : HandshakeState),
      (∀ e ∈ pre, isReadyEvent e = false ∧ isTerminatedEvent e = false) →
      runHandshakeLoop st (pre ++ rest) = runHandshakeLoop st rest := by
  intro pre
  induction pre with
  | nil => intro st _; rfl
  | cons e pre ih =>
    intro st h
    obtain ⟨hr, ht⟩ := h e (List.mem_cons_self e pre)
    have htail := fun x hx => h x (List.mem_cons_of_mem e hx)
    cases e with
    | stdout l =>
      have hstep : onStdout st l = st :=
        onStdout_nonready st l (by rw [← isReadyEvent_stdout]; exact hr)
      simpa [runHandshakeLoop, hstep] using ih st htail
    | stderr l => simpa [runHandshakeLoop] using ih st htail
    | errorEvent msg => simpa [runHandshakeLoop] using ih st htail
    | terminated c => simp [isTerminatedEvent] at ht
    | other => simpa [runHandshakeLoop] using ih st htail

theorem runHandshakeLoop_no_ready (evs : List CommandEvent) :
    ∀ st : HandshakeState, st.handshakeComplete = false →
      (∀ e ∈ evs, isReadyEvent e = false) →
      runHandshakeLoop st evs
        = (st, if hasTerminated evs then .terminatedBeforeReady else .ok) := by
  induction evs with
  | nil => intro st _ _; simp [runHandshakeLoop, hasTerminated]
  | cons e rest ih =>
    intro st hc h
    have he := h e (List.mem_cons_self e rest)
    have htail := fun x hx => h x (List.mem_cons_of_mem e hx)
    cases e with
    | stdout l =>
      have hstep : onStdout st l = st :=
        onStdout_nonready st l (by rw [← isReadyEvent_stdout]; exact he)
      rw [show runHandshakeLoop st (CommandEvent.stdout l :: rest)
            = runHandshakeLoop (onStdout st l) rest from rfl, hstep,
        ih st hc htail]
      simp [hasTerminated, isTerminatedEvent]
    | stderr l =>
      rw [show runHandshakeLoop st (CommandEvent.stderr l :: rest)
            = runHandshakeLoop st rest from rfl, ih st hc htail]
      simp [hasTerminated, isTerminatedEvent]
    | errorEvent msg =>
      rw [show runHandshakeLoop st (CommandEvent.errorEvent msg :: rest)
            = runHandshakeLoop st rest from rfl, ih st hc htail]
      simp [hasTerminated, isTerminatedEvent]
    | terminated c =>
      simp [runHandshakeLoop, hc, hasTerminated, isTerminatedEvent]
    | other =>
      rw [show runHandshakeLoop st (CommandEvent.other :: rest)
            = runHandshakeLoop st rest from rfl, ih st hc htail]
      simp [hasTerminated, isTerminatedEvent]

/-! ## Helper lemmas about the deserializer -/

theorem deserU16_out_of_range (n : Int) (hn : n < 0 ∨ 65536 ≤ n) :
    deserU16 (Json.num n) = none := by
  have h : ¬ (0 ≤ n ∧ n < 65536) := by omega
  simp [deserU16, h]

theorem visitField_bad_port (acc : ApiInfoFields) (n : Int)
    (hn : n < 0 ∨ 65536 ≤ n) : visitField acc "port" (Json.num n) = none := by
  unfold visitField
  rw [if_pos rfl, deserU16_out_of_range n hn]
  cases acc.port? <;> rfl

theorem visitFields_bad_port (n : Int) (hn : n < 0 ∨ 65536 ≤ n) :
    ∀ (fields : List (String × Json)) (acc : ApiInfoFields),
      ("port", Json.num n) ∈ fields → visitFields acc fields = none := by
  intro fields
  induction fields with
  | nil => intro acc h; cases h
  | cons hd rest ih =>
    intro acc hmem
    obtain ⟨k, v⟩ := hd
    rcases List.mem_cons.mp hmem with heq | hmem'
    · cases heq
      unfold visitFields
      rw [visitField_bad_port acc n hn]
    · unfold visitFields
      cases hstep : visitField acc k v with
      | none => rfl
      | some acc' => exact ih acc' hmem'

theorem visitField_preserves_token (acc acc' : ApiInfoFields) (k : String) (v : Json)
    (hk : k ≠ "token") (h : visitField acc k v = some acc') :
    acc'.token? = acc.token? := by
  unfold visitField at h
  by_cases h1 : k = "port"
  · rw [if_pos h1] at h
    cases hp : acc.port? with
    | some p => rw [hp] at h; cases hd : deserU16 v <;> rw [hd] at h <;> cases h
    | none =>
      rw [hp] at h
      cases hd : deserU16 v with
      | none => rw [hd] at h; cases h
      | some p => rw [hd] at h; cases h; rfl
  · rw [if_neg h1, if_neg hk] at h
    by_cases h3 : k = "status"
    · rw [if_pos h3] at h
      cases hs : acc.status? with
      | some s => rw [hs] at h; cases hd : deserString v <;> rw [hd] at h <;> cases h
      | none =>
        rw [hs] at h
        cases hd : deserString v with
        | none => rw [hd] at h; cases h
        | some s => rw [hd] at h; cases h; rfl
    · rw [if_neg h3] at h
      cases h; rfl

theorem visitFields_no_token :
    ∀ (fields : List (String × Json)) (acc acc' : ApiInfoFields),
      (∀ p ∈ fields, p.1 ≠ "token") →
      visitFields acc fields = some acc' → acc'.token? = acc.token? := by
  intro fields
  induction fields with
  | nil => intro acc acc' _ h; cases h; rfl
  | cons hd rest ih =>
    intro acc acc' hk h
    obtain ⟨k, v⟩ := hd
    unfold visitFields at h
    cases hstep : visitField acc k v with
    | none => rw [hstep] at h; cases h
    | some acc1 =>
      rw [hstep] at h
      have h1 : acc1.token? = acc.token? :=
        visitField_preserves_token acc acc1 k v
          (hk (k, v) (List.mem_cons_self (k, v) rest)) hstep
      have h2 : acc'.token? = acc1.token? :=
        ih acc1 acc' (fun p hp => hk p (List.mem_cons_of_mem (k, v) hp)) h
      rw [h2, h1]

theorem from_str_bad_port (fields : List (String × Json)) (n : Int)
    (hmem : ("port", Json.num n) ∈ fields) (hn : n < 0 ∨ 65536 ≤ n) :
    from_str_ApiInfo (.obj fields) = none := by
  simp only [from_str_ApiInfo]
  rw [visitFields_bad_port n hn fields _ hmem]

theorem from_str_no_token (fields : List (String × Json))
    (hk : ∀ p ∈ fields, p.1 ≠ "token") :
    from_str_ApiInfo (.obj fields) = none := by
  simp only [from_str_ApiInfo]
  cases hv : visitFields ⟨none, none, none⟩ fields with
  | none => rfl
  | some acc' =>
    have ht : acc'.token? = none := visitFields_no_token fields _ acc' hk hv
    obtain ⟨p?, t?, s?⟩ := acc'
    simp only [ApiInfoFields.token?] at ht
    subst ht
    cases p? <;> cases s? <;> rfl

theorem onStdout_decode_fails (st : HandshakeState) (v : Json)
    (h : from_str_ApiInfo v = none) : onStdout st (.jsonLine v) = st := by
  unfold onStdout
  cases hc : st.handshakeComplete <;> simp [h]

/-! ## Helper lemmas about the polling loop -/

theorem pollLoop_all_none (avail : Nat → Option ApiInfo) (h : ∀ j, avail j = none) :
    ∀ (fuel k : Nat), pollLoop avail k fuel = .error (k + fuel) := by
  intro fuel
  induction fuel with
  | zero => intro k; simp [pollLoop]
  | succ fuel ih =>
    intro k
    rw [show pollLoop avail k (fuel + 1)
          = pollLoop avail (k + pollIntervalSecs) fuel by simp [pollLoop, h k]]
    rw [show k + pollIntervalSecs = k + 1 from rfl, ih (k + 1)]
    congr 1
    omega

theorem pollLoop_first_some (avail : Nat → Option ApiInfo) (t : Nat) (info : ApiInfo)
    (hnone : ∀ j, j < t → avail j = none) (hsome : avail t = some info) :
    ∀ (fuel k : Nat), k ≤ t → t < k + fuel → pollLoop avail k fuel = .ok info := by
  intro fuel
  induction fuel with
  | zero => intro k hk ht; omega
  | succ fuel ih =>
    intro k hk ht
    by_cases hkt : k = t
    · subst hkt; simp [pollLoop, hsome]
    · have hlt : k < t := lt_of_le_of_ne hk hkt
      rw [show pollLoop avail k (fuel + 1)
            = pollLoop avail (k + pollIntervalSecs) fuel by
          simp [pollLoop, hnone k hlt]]
      exact ih (k + 1) hlt (by omega)

/-! ## Claim theorems -/

/-- C2: for every finite sequence of worker-stdout lines consisting of zero
or more lines that do not decode as a valid ready record, followed by
exactly one valid ready record, the handshake reader publishes into
Connection State a descriptor whose port, token and status fields equal
that record's fields, and the preceding lines have no effect on Connection
State. -/
theorem ready_record_published (lines : List StdoutLine) (v : Json) (info : ApiInfo)
    (hpre : ∀ l ∈ lines, decodesAsReady l = false)
    (hv : from_str_ApiInfo v = some info)
    (hready : info.status = "ready") :
    runHandshakeLoop ⟨none, false⟩ (lines.map .stdout ++ [.stdout (.jsonLine v)])
      = (⟨some info, true⟩, .ok) := by
  have hpre' : ∀ e ∈ lines.map CommandEvent.stdout,
      isReadyEvent e = false ∧ isTerminatedEvent e = false := by
    intro e he
    obtain ⟨l, hl, rfl⟩ := List.mem_map.mp he
    exact ⟨by rw [isReadyEvent_stdout]; exact hpre l hl, rfl⟩
  rw [runHandshakeLoop_skip _ _ _ hpre']
  simp [runHandshakeLoop, onStdout, hv, hready]

/-- Witness for `ready_record_published`: two diagnostic lines then the
record with port 8042, token "s3cr3t" and status "ready". -/
theorem ready_record_published_witness :
    runHandshakeLoop ⟨none, false⟩
        ([StdoutLine.notJson "booting", StdoutLine.jsonLine (Json.str "hello")].map .stdout
          ++ [.stdout (.jsonLine (Json.obj
                [("status", Json.str "ready"), ("port", Json.num 8042),
                 ("token", Json.str "s3cr3t")]))])
      = (⟨some ⟨8042, "s3cr3t", "ready"⟩, true⟩, .ok) :=
  ready_record_published _ _ _
    (by
      intro l hl
      rcases List.mem_cons.mp hl with rfl | hl
      · rfl
      · rw [List.mem_singleton] at hl
        subst hl
        rfl)
    rfl rfl

/-- C3 counterexample: the event channel ends (the list of events is
exhausted) with zero ready records observed and no `Terminated` event; the
handshake task returns `Ok(())`, not a failure, and no "sidecar-error" is
emitted — refuting the claim that such a closure resolves as a
`ClosedBeforeReady` failure. -/
theorem closed_before_ready_cex :
    runHandshakeLoop ⟨none, false⟩ [.stdout (.notJson "worker log")] = (⟨none, false⟩, .ok)
    ∧ start_sidecar_run ⟨none, false⟩ [.stdout (.notJson "worker log")] = (⟨none, false⟩, []) :=
  ⟨rfl, rfl⟩

/-- C3 amended: if the event channel ends with zero valid ready records,
Connection State remains `none`; the handshake resolves as a failure
(surfaced as "sidecar-error") if and only if a `Terminated` event was
observed — there is no distinct closed-before-ready error, and a channel
that ends without a `Terminated` event resolves as success with no event
emitted. -/
theorem closed_before_ready_amended (evs : List CommandEvent)
    (h : ∀ e ∈ evs, isReadyEvent e = false) :
    (runHandshakeLoop ⟨none, false⟩ evs).1.apiState = none
    ∧ (runHandshakeLoop ⟨none, false⟩ evs).2
        = (if hasTerminated evs then .terminatedBeforeReady else .ok)
    ∧ (start_sidecar_run ⟨none, false⟩ evs).2
        = (if hasTerminated evs then ["sidecar-error"] else []) := by
  have hrun := runHandshakeLoop_no_ready evs ⟨none, false⟩ rfl h
  refine ⟨by rw [hrun], by rw [hrun], ?_⟩
  unfold start_sidecar_run
  rw [hrun]
  cases ht : hasTerminated evs <;> simp

/-- Witness for `closed_before_ready_amended`: a single `Terminated` event. -/
theorem closed_before_ready_amended_witness :
    (runHandshakeLoop ⟨none, false⟩ [CommandEvent.terminated (some 1)]).1.apiState = none
    ∧ (runHandshakeLoop ⟨none, false⟩ [CommandEvent.terminated (some 1)]).2
        = (if hasTerminated [CommandEvent.terminated (some 1)]
            then .terminatedBeforeReady else .ok)
    ∧ (start_sidecar_run ⟨none, false⟩ [CommandEvent.terminated (some 1)]).2
        = (if hasTerminated [CommandEvent.terminated (some 1)]
            then ["sidecar-error"] else []) :=
  closed_before_ready_amended _
    (by
      intro e he
      rw [List.mem_singleton] at he
      subst he
      rfl)

/-- C5 counterexample: a run whose handshake publishes a Ready descriptor
emits no "sidecar-ready" event (the emitted-event list of a successful run
is empty) — refuting the claim that the Supervisor emits `sidecar-ready`. -/
theorem sidecar_ready_event_cex :
    (runHandshakeLoop ⟨none, false⟩
        [.stdout (.jsonLine (Json.obj [("status", Json.str "ready"),
          ("port", Json.num 8100), ("token", Json.str "tkn")]))]).1.apiState
      = some ⟨8100, "tkn", "ready"⟩
    ∧ "sidecar-ready" ∉ (start_sidecar_run ⟨none, false⟩
        [.stdout (.jsonLine (Json.obj [("status", Json.str "ready"),
          ("port", Json.num 8100), ("token", Json.str "tkn")]))]).2 := by
  refine ⟨rfl, ?_⟩
  have h : (start_sidecar_run ⟨none, false⟩
      [.stdout (.jsonLine (Json.obj [("status", Json.str "ready"),
        ("port", Json.num 8100), ("token", Json.str "tkn")]))]).2 = [] := rfl
  rw [h]
  exact List.not_mem_nil _

/-- C5 amended: the Supervisor emits no event at all on a successful
handshake and only ever emits "sidecar-error" (on handshake failure); in
particular no `sidecar-ready` event exists — readiness is observed by
callers only through polling Connection State. -/
theorem supervisor_emits_only_error (st : HandshakeState) (evs : List CommandEvent) :
    (∀ s ∈ (start_sidecar_run st evs).2, s = "sidecar-error")
    ∧ ((runHandshakeLoop st evs).2 = .ok → (start_sidecar_run st evs).2 = []) := by
  rcases hr : runHandshakeLoop st evs with ⟨st', out⟩
  unfold start_sidecar_run
  rw [hr]
  cases out with
  | ok => exact ⟨fun s hs => absurd hs (List.not_mem_nil s), fun _ => rfl⟩
  | terminatedBeforeReady =>
    refine ⟨?_, ?_⟩
    · intro s hs
      rw [List.mem_singleton] at hs
      exact hs
    · intro hok
      exact absurd hok (by simp)

/-- Witness for `supervisor_emits_only_error`: the one event emitted on a
terminated-before-ready run is "sidecar-error", and a trivially successful
run emits nothing. -/
theorem supervisor_emits_only_error_witness :
    "sidecar-error" = "sidecar-error"
    ∧ (start_sidecar_run ⟨none, true⟩ []).2 = [] :=
  ⟨(supervisor_emits_only_error ⟨none, false⟩ [CommandEvent.terminated none]).1
      "sidecar-error"
      (by
        rw [show (start_sidecar_run ⟨none, false⟩ [CommandEvent.terminated none]).2
            = ["sidecar-error"] from rfl]
        exact List.mem_singleton.mpr rfl),
    (supervisor_emits_only_error ⟨none, true⟩ []).2 rfl⟩

/-- C10: a stdout line that decodes as a structurally valid record whose
status is not "ready" neither completes nor fails the handshake: processing
it is a no-op — Connection State is not written, no error is produced, and
the reader continues with the subsequent events. -/
theorem non_ready_record_ignored (v : Json) (info : ApiInfo)
    (st : HandshakeState) (rest : List CommandEvent)
    (hv : from_str_ApiInfo v = some info) (hs : info.status ≠ "ready") :
    runHandshakeLoop st (.stdout (.jsonLine v) :: rest) = runHandshakeLoop st rest
    ∧ runHandshakeLoop ⟨none, false⟩ [.stdout (.jsonLine v)] = (⟨none, false⟩, .ok) := by
  have hstep : ∀ st' : HandshakeState, onStdout st' (.jsonLine v) = st' := by
    intro st'
    apply onStdout_nonready
    simp [decodesAsReady, hv, hs]
  constructor
  · show runHandshakeLoop (onStdout st (.jsonLine v)) rest = runHandshakeLoop st rest
    rw [hstep st]
  · show runHandshakeLoop (onStdout ⟨none, false⟩ (.jsonLine v)) [] = (⟨none, false⟩, .ok)
    rw [hstep ⟨none, false⟩]
    rfl

/-- Witness for `non_ready_record_ignored`: the record
with port 9, token "t" and status "starting". -/
theorem non_ready_record_ignored_witness :
    runHandshakeLoop ⟨none, false⟩
        [.stdout (.jsonLine (Json.obj [("port", Json.num 9), ("token", Json.str "t"),
          ("status", Json.str "starting")])), .terminated none]
      = runHandshakeLoop ⟨none, false⟩ [.terminated none]
    ∧ runHandshakeLoop ⟨none, false⟩
        [.stdout (.jsonLine (Json.obj [("port", Json.num 9), ("token", Json.str "t"),
          ("status", Json.str "starting")]))]
      = (⟨none, false⟩, .ok) :=
  non_ready_record_ignored _ ⟨9, "t", "starting"⟩ _ _ rfl (by decide)

/-- C1 counterexample: after a successful handshake (the `ApiState` cell
holds a Ready descriptor) and with a worker handle held,
`stop_python_sidecar` succeeds but the Connection State cell still holds
the descriptor — the non-polling query reports it as available, refuting
the claim that stop clears the cell to `None`. -/
theorem stop_clears_connection_cex :
    (stop_python_sidecar ⟨some ⟨8042, "tok", "ready"⟩, some ⟨.killOk⟩⟩).2 = .ok ()
    ∧ AppModel.get_info (stop_python_sidecar ⟨some ⟨8042, "tok", "ready"⟩, some ⟨.killOk⟩⟩).1
        = some ⟨8042, "tok", "ready"⟩
    ∧ (stop_python_sidecar ⟨some ⟨8042, "tok", "ready"⟩, some ⟨.killOk⟩⟩).1.apiInfo
        ≠ none := by
  refine ⟨rfl, rfl, ?_⟩
  intro h
  exact Option.noConfusion h

/-- C1 amended: `stop_python_sidecar` on a state holding a worker handle
empties the process slot (the handle is consumed by `kill`), but leaves
Connection State untouched: a subsequent non-polling query returns exactly
what it returned before the stop. -/
theorem stop_leaves_connection_state (m : AppModel) (c : ChildProc)
    (h : m.processHeld = some c) :
    (stop_python_sidecar m).1.processHeld = none
    ∧ AppModel.get_info (stop_python_sidecar m).1 = AppModel.get_info m := by
  obtain ⟨api, proc⟩ := m
  cases proc with
  | none => exact Option.noConfusion h
  | some c' => exact ⟨rfl, rfl⟩

/-- Witness for `stop_leaves_connection_state`: a published descriptor and a
held handle whose kill fails with an OS error. -/
theorem stop_leaves_connection_state_witness :
    (stop_python_sidecar ⟨some ⟨9001, "w", "ready"⟩, some ⟨.killErr "ESRCH"⟩⟩).1.processHeld
        = none
    ∧ AppModel.get_info
          (stop_python_sidecar ⟨some ⟨9001, "w", "ready"⟩, some ⟨.killErr "ESRCH"⟩⟩).1
        = AppModel.get_info ⟨some ⟨9001, "w", "ready"⟩, some ⟨.killErr "ESRCH"⟩⟩ :=
  stop_leaves_connection_state _ ⟨.killErr "ESRCH"⟩ rfl

/-- C8: calling `stop_python_sidecar` with no held process returns the
benign "No sidecar process was running." error and leaves the whole state
(Connection State included) unchanged; and when a process is held, the
first of two back-to-back calls either succeeds or fails only with an
OS-level kill error, while the second always reports "nothing to stop"
(both are total functions, so neither can panic). -/
theorem stop_worker_benign (m : AppModel) (c : ChildProc) :
    (m.processHeld = none →
        stop_python_sidecar m = (m, .error "No sidecar process was running."))
    ∧ (m.processHeld = some c →
        ((stop_python_sidecar m).2 = .ok ()
          ∨ ∃ e, (stop_python_sidecar m).2
              = .error ("Failed to kill sidecar: " ++ e))
        ∧ (stop_python_sidecar (stop_python_sidecar m).1).2
            = .error "No sidecar process was running.") := by
  obtain ⟨api, proc⟩ := m
  constructor
  · intro h
    cases proc with
    | none => rfl
    | some c' => exact Option.noConfusion h
  · intro h
    cases proc with
    | none => exact Option.noConfusion h
    | some c' =>
      obtain ⟨ko⟩ := c'
      cases ko with
      | killOk => exact ⟨Or.inl rfl, rfl⟩
      | killErr e => exact ⟨Or.inr ⟨e, rfl⟩, rfl⟩

/-- Witness for `stop_worker_benign`: an empty state for the first
conjunct; a held process with a clean kill for the back-to-back pair. -/
theorem stop_worker_benign_witness :
    stop_python_sidecar ⟨none, none⟩
        = (⟨none, none⟩, .error "No sidecar process was running.")
    ∧ (((stop_python_sidecar ⟨none, some ⟨.killOk⟩⟩).2 = .ok ()
        ∨ ∃ e, (stop_python_sidecar ⟨none, some ⟨.killOk⟩⟩).2
            = .error ("Failed to kill sidecar: " ++ e))
      ∧ (stop_python_sidecar (stop_python_sidecar ⟨none, some ⟨.killOk⟩⟩).1).2
          = .error "No sidecar process was running.") :=
  ⟨(stop_worker_benign ⟨none, none⟩ ⟨.killOk⟩).1 rfl,
   (stop_worker_benign ⟨none, some ⟨.killOk⟩⟩ ⟨.killOk⟩).2 rfl⟩

/-- C9: `stop_python_sidecar` never modifies the connection-info cell in any
branch — killing a held process, failing to kill it, or finding no process
— the `ApiState` cell before and after the call is identical. -/
theorem stop_preserves_connection_state (m : AppModel) :
    (stop_python_sidecar m).1.apiInfo = m.apiInfo
    ∧ AppModel.get_info (stop_python_sidecar m).1 = AppModel.get_info m := by
  obtain ⟨api, proc⟩ := m
  cases proc with
  | none => exact ⟨rfl, rfl⟩
  | some c => exact ⟨rfl, rfl⟩

/-- C4: the bounded-wait query returns the published descriptor whenever the
Connection State cell becomes occupied at some poll instant within the
120-second bound, and, for a worker that never becomes ready, fails only
after the full bound with the reported elapsed time within one poll
interval of the bound. -/
theorem get_api_info_bounded_wait (avail : Nat → Option ApiInfo) :
    (∀ t info, t < timeoutSecs → (∀ j, j < t → avail j = none) →
        avail t = some info → get_api_info avail = .ok info)
    ∧ ((∀ j, avail j = none) →
        ∃ e, get_api_info avail = .error e
          ∧ timeoutSecs ≤ e ∧ e < timeoutSecs + pollIntervalSecs) := by
  constructor
  · intro t info ht hnone hsome
    unfold get_api_info
    exact pollLoop_first_some avail t info hnone hsome _ 0 (Nat.zero_le t)
      (by simp only [timeoutSecs, pollIntervalSecs] at ht ⊢; omega)
  · intro h
    refine ⟨timeoutSecs, ?_, le_refl _, by simp [pollIntervalSecs]⟩
    unfold get_api_info
    rw [pollLoop_all_none avail h _ 0]
    norm_num [timeoutSecs, pollIntervalSecs]

/-- Witness for `get_api_info_bounded_wait`: a cell that becomes occupied at
the 2-second poll instant yields the descriptor; a cell that never does
yields the timeout error at the 120-second bound. -/
theorem get_api_info_bounded_wait_witness :
    get_api_info (fun k => if 2 ≤ k then some ⟨8042, "tok", "ready"⟩ else none)
        = .ok ⟨8042, "tok", "ready"⟩
    ∧ ∃ e, get_api_info (fun _ => none) = .error e
        ∧ timeoutSecs ≤ e ∧ e < timeoutSecs + pollIntervalSecs :=
  ⟨(get_api_info_bounded_wait _).1 2 ⟨8042, "tok", "ready"⟩
      (by norm_num [timeoutSecs])
      (by intro j hj; rw [if_neg (by omega)])
      (by rw [if_pos (by omega)]),
   (get_api_info_bounded_wait _).2 (fun _ => rfl)⟩

/-- C6 counterexample: a stop issued mid-handshake does kill the worker
(the slot is emptied and the kill succeeds), but when the handshake task
then observes the resulting `Terminated` event it returns the
terminated-before-ready error and "sidecar-error" IS emitted — refuting
the claim that an application-requested stop is never surfaced as an
application-level error. -/
theorem stop_during_handshake_cex :
    (stop_python_sidecar ⟨none, some ⟨.killOk⟩⟩).1.processHeld = none
    ∧ (stop_python_sidecar ⟨none, some ⟨.killOk⟩⟩).2 = .ok ()
    ∧ (start_sidecar_run ⟨none, false⟩ [.terminated (some 9)]).2 = ["sidecar-error"] :=
  ⟨rfl, rfl, rfl⟩

/-- C6 amended: stopping the worker while the handshake task is still
awaiting output does kill the process (the handle is consumed), but the
handshake task has no flag distinguishing an application-requested stop
from a crash: upon observing the post-stop `Terminated` event it reports
the terminated-before-ready error, and a "sidecar-error" event IS
surfaced. -/
theorem stop_during_handshake_amended (m : AppModel) (c : ChildProc)
    (evs : List CommandEvent)
    (hm : m.processHeld = some c)
    (hnr : ∀ e ∈ evs, isReadyEvent e = false)
    (ht : hasTerminated evs = true) :
    (stop_python_sidecar m).1.processHeld = none
    ∧ (start_sidecar_run ⟨none, false⟩ evs).2 = ["sidecar-error"] := by
  constructor
  · obtain ⟨api, proc⟩ := m
    cases proc with
    | none => exact Option.noConfusion hm
    | some c' => rfl
  · have hrun := runHandshakeLoop_no_ready evs ⟨none, false⟩ rfl hnr
    rw [ht] at hrun
    simp only [if_true] at hrun
    unfold start_sidecar_run
    rw [hrun]

/-- Witness for `stop_during_handshake_amended`: a held handle whose kill
reports an OS error, and a post-stop event stream of one diagnostic line
followed by the termination event. -/
theorem stop_during_handshake_amended_witness :
    (stop_python_sidecar ⟨none, some ⟨.killErr "EPERM"⟩⟩).1.processHeld = none
    ∧ (start_sidecar_run ⟨none, false⟩
        [.stdout (.notJson "shutting down"), .terminated (some 0)]).2
      = ["sidecar-error"] :=
  stop_during_handshake_amended _ ⟨.killErr "EPERM"⟩ _ rfl
    (by
      intro e he
      rcases List.mem_cons.mp he with rfl | he
      · rfl
      · rw [List.mem_singleton] at he
        subst he
        rfl)
    rfl

/-- C7: a JSON object claiming readiness but carrying a port value outside
the uint16 range, or lacking the token field, fails to decode; the line is
a non-fatal diagnostic: the handshake is neither completed nor aborted and
Connection State is not written — processing the line is a no-op and the
reader continues with the subsequent events. -/
theorem malformed_ready_record_ignored (fields : List (String × Json))
    (st : HandshakeState) (rest : List CommandEvent)
    (_hclaim : ("status", Json.str "ready") ∈ fields)
    (hbad : (∃ n : Int, ("port", Json.num n) ∈ fields ∧ (n < 0 ∨ 65536 ≤ n))
        ∨ (∀ p ∈ fields, p.1 ≠ "token")) :
    from_str_ApiInfo (.obj fields) = none
    ∧ runHandshakeLoop st (.stdout (.jsonLine (.obj fields)) :: rest)
        = runHandshakeLoop st rest := by
  have hnone : from_str_ApiInfo (.obj fields) = none := by
    rcases hbad with ⟨n, hmem, hn⟩ | htok
    · exact from_str_bad_port fields n hmem hn
    · exact from_str_no_token fields htok
  refine ⟨hnone, ?_⟩
  show runHandshakeLoop (onStdout st (.jsonLine (.obj fields))) rest
      = runHandshakeLoop st rest
  rw [onStdout_decode_fails st _ hnone]

/-- Witness for `malformed_ready_record_ignored`: the record
with status "ready" but port 70000 (out of u16 range), and the record
with status "ready" and an in-range port but no token field. -/
theorem malformed_ready_record_ignored_witness :
    (from_str_ApiInfo (.obj [("status", Json.str "ready"), ("port", Json.num 70000),
        ("token", Json.str "t")]) = none
      ∧ runHandshakeLoop ⟨none, false⟩
          [.stdout (.jsonLine (.obj [("status", Json.str "ready"),
            ("port", Json.num 70000), ("token", Json.str "t")]))]
        = runHandshakeLoop ⟨none, false⟩ [])
    ∧ (from_str_ApiInfo (.obj [("status", Json.str "ready"),
        ("port", Json.num 8042)]) = none
      ∧ runHandshakeLoop ⟨none, false⟩
          [.stdout (.jsonLine (.obj [("status", Json.str "ready"),
            ("port", Json.num 8042)]))]
        = runHandshakeLoop ⟨none, false⟩ []) :=
  ⟨malformed_ready_record_ignored _ _ _ (List.mem_cons_self _ _)
      (Or.inl ⟨70000, List.mem_cons_of_mem _ (List.mem_cons_self _ _), by omega⟩),
   malformed_ready_record_ignored _ _ _ (List.mem_cons_self _ _)
      (Or.inr (by
        intro p hp
        rcases List.mem_cons.mp hp with rfl | hp
        · decide
        · rw [List.mem_singleton] at hp
          subst hp
          decide))⟩
